import Mathlib

/-!
Verification development for the EdgeX device directory store
(internal/pkg/v2/infrastructure/redis/device.go).

The device store keeps serialized device records in a Redis-compatible
key-value substrate together with five index structures: the primary
object table (string keys), the id membership index (a sorted set),
the name uniqueness index (a hash), and per-service, per-profile and
per-label grouping buckets (sorted sets scored by the modified time).

The substrate is embedded as an explicit state: association lists for
the string table, the sorted-set table and the hash table.  The device
operations are translated from device.go; mutations are issued as
atomic command batches, and every operation also reports the list of
batches it executed, so that theorems can speak about exactly which
mutations an operation performs.  Substrate helpers that device.go
calls but whose bodies live elsewhere in the repository are modelled
from the specification and marked as such in their doc comments.
-/

namespace DeviceStore

/-- Device record.  Modelled from the spec: the domain record
(go-mod-core-contracts models.Device) is an external collaborator; the
spec data model lists id, name, serviceName, profileName, labels,
created and modified as the attributes this store reads and writes. -/
structure Device where
  Id : String
  Name : String
  ServiceName : String
  ProfileName : String
  Labels : List String
  Created : Int
  Modified : Int
deriving DecidableEq

/-- The zero value of a Device, returned by lookups on their error paths. -/
def emptyDevice : Device :=
  { Id := "", Name := "", ServiceName := "", ProfileName := "",
    Labels := [], Created := 0, Modified := 0 }

/-- Serialized record bytes.  Modelled from the spec: JSON encoding and
decoding of the domain record is an external collaborator specified only
at its interface (encode may fail, decode may fail, and a successful
encode followed by decode returns the original record).  The payload is
kept abstract as the record itself; the encoder and decoder are passed
as parameters of type Device to Option Bytes and Bytes to Option Device
so that their failure cases remain expressible. -/
def Bytes : Type := Device

deriving instance DecidableEq for Bytes

/-- The canonical encoder of the interface contract (total, identity). -/
def jsonMarshal : Device → Option Bytes := fun d => some d

/-- The canonical decoder of the interface contract (total, identity). -/
def jsonUnmarshal : Bytes → Option Device := fun b => some b

/-- Error kinds used by the store, from the error-handling design of the
spec (DuplicateId, DuplicateName, NotFound, ContractInvalid,
DatabaseError); notFound is the kind of entity-does-not-exist failures. -/
inductive ErrKind where
  | duplicateId
  | duplicateName
  | notFound
  | contractInvalid
  | databaseError
deriving DecidableEq

/-- Association-list update: replace the value at the key, or append. -/
def alSet {α : Type} (l : List (String × α)) (k : String) (v : α) :
    List (String × α) :=
  match l with
  | [] => [(k, v)]
  | (k2, v2) :: rest =>
      if k2 = k then (k, v) :: rest else (k2, v2) :: alSet rest k v

/-- Association-list lookup. -/
def alGet {α : Type} (l : List (String × α)) (k : String) : Option α :=
  match l with
  | [] => none
  | (k2, v2) :: rest => if k2 = k then some v2 else alGet rest k

/-- Association-list removal of a key. -/
def alDel {α : Type} (l : List (String × α)) (k : String) :
    List (String × α) :=
  match l with
  | [] => []
  | (k2, v2) :: rest =>
      if k2 = k then rest else (k2, v2) :: alDel rest k

/-- Association-list lookup with a default. -/
def alGetD {α : Type} (l : List (String × α)) (k : String) (d : α) : α :=
  match alGet l k with
  | some v => v
  | none => d

/-- State of the Redis-compatible substrate, restricted to the three
structures the device store uses: string keys (primary object table),
sorted sets (membership and grouping indexes; member with score), and
hashes (name uniqueness index; field with value). -/
structure RedisState where
  strings : List (String × Bytes)
  zsets : List (String × List (String × Int))
  hashes : List (String × List (String × String))
deriving DecidableEq

/-- The commands device.go queues between MULTI and EXEC. -/
inductive Cmd where
  | set (key : String) (value : Bytes)
  | del (key : String)
  | zadd (key : String) (score : Int) (member : String)
  | zrem (key : String) (member : String)
  | hset (key : String) (field : String) (value : String)
  | hdel (key : String) (field : String)
deriving DecidableEq

/-- Update a sorted set: set the score of the member, or append it. -/
def zinsert (l : List (String × Int)) (m : String) (s : Int) :
    List (String × Int) :=
  match l with
  | [] => [(m, s)]
  | (m2, s2) :: rest =>
      if m2 = m then (m, s) :: rest else (m2, s2) :: zinsert rest m s

/-- Remove a member from a sorted set. -/
def zremove (l : List (String × Int)) (m : String) : List (String × Int) :=
  match l with
  | [] => []
  | (m2, s2) :: rest =>
      if m2 = m then rest else (m2, s2) :: zremove rest m

/-- Whether a sorted set contains the member. -/
def zmember (l : List (String × Int)) (m : String) : Bool :=
  l.any (fun p => p.1 = m)

/-- Effect of one substrate command on the substrate state.  Modelled
from the spec: the substrate supports scalar set and delete, ordered-set
add and remove, and hash-field set and delete. -/
def applyCmd (st : RedisState) : Cmd → RedisState
  | .set k v => { st with strings := alSet st.strings k v }
  | .del k => { st with strings := alDel st.strings k }
  | .zadd k s m =>
      { st with zsets := alSet st.zsets k (zinsert (alGetD st.zsets k []) m s) }
  | .zrem k m =>
      { st with zsets := alSet st.zsets k (zremove (alGetD st.zsets k []) m) }
  | .hset k f v =>
      { st with hashes := alSet st.hashes k (alSet (alGetD st.hashes k []) f v) }
  | .hdel k f =>
      { st with hashes := alSet st.hashes k (alDel (alGetD st.hashes k []) f) }

/-- Effect of an atomic batch: the queued commands applied in order,
all or nothing (the model substrate commits every batch). -/
def applyBatch (st : RedisState) (cmds : List Cmd) : RedisState :=
  cmds.foldl applyCmd st

/-- Key separator of the store key space.  Modelled from the spec: every
composite key in the published key-space layout joins its parts with a
colon. -/
def DBKeySeparator : String := ":"

/-- CreateKey joins two key parts with the separator.  Modelled from the
spec key-space layout. -/
def CreateKey (a b : String) : String := a ++ DBKeySeparator ++ b

/-- Constant "name".  Modelled from the spec key-space layout. -/
def v2Name : String := "name"

/-- Constant "label".  Modelled from the spec key-space layout. -/
def v2Label : String := "label"

/-- Constant "service".  Modelled from the spec key-space layout. -/
def v2Service : String := "service"

/-- Constant "profile".  Modelled from the spec key-space layout. -/
def v2Profile : String := "profile"

/-- Collection literal for the device table (device.go line 22). -/
def DeviceCollection : String := "md|dv"

/-- Key of the name uniqueness index (device.go line 23). -/
def DeviceCollectionName : String :=
  DeviceCollection ++ DBKeySeparator ++ v2Name

/-- Stem of the label grouping keys (device.go line 24). -/
def DeviceCollectionLabel : String :=
  DeviceCollection ++ DBKeySeparator ++ v2Label

/-- Stem of the service grouping keys (device.go line 25). -/
def DeviceCollectionServiceName : String :=
  DeviceCollection ++ DBKeySeparator ++ v2Service ++ DBKeySeparator ++ v2Name

/-- Stem of the profile grouping keys (device.go line 26). -/
def DeviceCollectionProfileName : String :=
  DeviceCollection ++ DBKeySeparator ++ v2Profile ++ DBKeySeparator ++ v2Name

/-- deviceStoredKey combines the collection name and the object id
(device.go lines 30-32). -/
def deviceStoredKey (id : String) : String :=
  CreateKey DeviceCollection id

/-- deviceIdExists (device.go lines 44-50).  Modelled from the spec for
the helper objectIdExists: a pure read check of the id membership
index. -/
def deviceIdExists (st : RedisState) (id : String) : Bool :=
  zmember (alGetD st.zsets DeviceCollection []) (deviceStoredKey id)

/-- deviceNameExists (device.go lines 35-41).  Modelled from the spec
for the helper objectNameExists: a pure read check of the name
uniqueness index. -/
def deviceNameExists (st : RedisState) (name : String) : Bool :=
  (alGet (alGetD st.hashes DeviceCollectionName []) name).isSome

/-- Timestamp assignment of addDevice (device.go lines 68-72): created
is assigned only when unset, modified is always assigned. -/
def withTimestamps (ts : Int) (d : Device) : Device :=
  { d with Created := if d.Created = 0 then ts else d.Created,
           Modified := ts }

/-- addDevice (device.go lines 53-95).  The timestamp ts stands for the
external MakeTimestamp call and marshal for the external JSON encoder.
The result carries the returned device and error kind, the substrate
state after the call, and the list of atomic batches the call
executed. -/
def addDevice (marshal : Device → Option Bytes) (ts : Int)
    (st : RedisState) (d : Device) :
    (Device × Option ErrKind) × RedisState × List (List Cmd) :=
  if deviceIdExists st d.Id then
    ((d, some ErrKind.duplicateName), st, [])
  else if deviceNameExists st d.Name then
    ((d, some ErrKind.duplicateName), st, [])
  else
    let dts := withTimestamps ts d
    match marshal dts with
    | none => ((dts, some ErrKind.contractInvalid), st, [])
    | some bs =>
        let storedKey := deviceStoredKey dts.Id
        let batch :=
          [Cmd.set storedKey bs,
           Cmd.zadd DeviceCollection 0 storedKey,
           Cmd.hset DeviceCollectionName dts.Name storedKey,
           Cmd.zadd (CreateKey DeviceCollectionServiceName dts.ServiceName)
             dts.Modified storedKey,
           Cmd.zadd (CreateKey DeviceCollectionProfileName dts.ProfileName)
             dts.Modified storedKey] ++
          dts.Labels.map (fun label =>
            Cmd.zadd (CreateKey DeviceCollectionLabel label)
              dts.Modified storedKey)
        ((dts, none), applyBatch st batch, [batch])

/-- deviceById (device.go lines 98-104).  Modelled from the spec for the
helper getObjectById: fetch the primary object table entry for the
stored key (absence is a NotFound failure, a decode failure is a hard
ContractInvalid error) and deserialize it. -/
def deviceById (unmarshal : Bytes → Option Device) (st : RedisState)
    (id : String) : Device × Option ErrKind :=
  match alGet st.strings (deviceStoredKey id) with
  | none => (emptyDevice, some ErrKind.notFound)
  | some bs =>
      match unmarshal bs with
      | none => (emptyDevice, some ErrKind.contractInvalid)
      | some d => (d, none)

/-- deviceByName (device.go lines 107-113).  Modelled from the spec for
the helper getObjectByHash: resolve the stored key through the name
uniqueness index (absence is a NotFound failure), then fetch and
deserialize the primary object table entry. -/
def deviceByName (unmarshal : Bytes → Option Device) (st : RedisState)
    (name : String) : Device × Option ErrKind :=
  match alGet (alGetD st.hashes DeviceCollectionName []) name with
  | none => (emptyDevice, some ErrKind.notFound)
  | some storedKey =>
      match alGet st.strings storedKey with
      | none => (emptyDevice, some ErrKind.notFound)
      | some bs =>
          match unmarshal bs with
          | none => (emptyDevice, some ErrKind.contractInvalid)
          | some d => (d, none)

/-- deleteDevice (device.go lines 142-158): one atomic batch removing
the record from the primary table and from every index it participates
in, using the field values of the resolved record. -/
def deleteDevice (st : RedisState) (device : Device) :
    Option ErrKind × RedisState × List (List Cmd) :=
  let storedKey := deviceStoredKey device.Id
  let batch :=
    [Cmd.del storedKey,
     Cmd.zrem DeviceCollection storedKey,
     Cmd.hdel DeviceCollectionName device.Name,
     Cmd.zrem (CreateKey DeviceCollectionServiceName device.ServiceName)
       storedKey,
     Cmd.zrem (CreateKey DeviceCollectionProfileName device.ProfileName)
       storedKey] ++
    device.Labels.map (fun label =>
      Cmd.zrem (CreateKey DeviceCollectionLabel label) storedKey)
  (none, applyBatch st batch, [batch])

/-- deleteDeviceById (device.go lines 116-126): resolve by id, then
delete; a resolution failure is returned wrapped (same kind) and
nothing is executed. -/
def deleteDeviceById (unmarshal : Bytes → Option Device) (st : RedisState)
    (id : String) : Option ErrKind × RedisState × List (List Cmd) :=
  match deviceById unmarshal st id with
  | (_, some e) => (some e, st, [])
  | (device, none) => deleteDevice st device

/-- deleteDeviceByName (device.go lines 129-139): resolve by name, then
delete; a resolution failure is returned wrapped (same kind) and
nothing is executed. -/
def deleteDeviceByName (unmarshal : Bytes → Option Device) (st : RedisState)
    (name : String) : Option ErrKind × RedisState × List (List Cmd) :=
  match deviceByName unmarshal st name with
  | (_, some e) => (some e, st, [])
  | (device, none) => deleteDevice st device

/-- Descending insertion of a scored member: higher scores first, ties
broken by reverse lexicographic member order, matching the order the
substrate range-by-rank command reports for descending reads. -/
def insertDesc (x : String × Int) : List (String × Int) → List (String × Int)
  | [] => [x]
  | y :: ys =>
      if x.2 > y.2 ∨ (x.2 = y.2 ∧ y.1 ≤ x.1) then x :: y :: ys
      else y :: insertDesc x ys

/-- Descending listing of a sorted set. -/
def sortDesc (l : List (String × Int)) : List (String × Int) :=
  l.foldr insertDesc []

/-- Full descending listing of a sorted set: its members ordered by
descending score (the order the substrate reads them in for descending
range-by-rank). -/
def groupListing (zset : List (String × Int)) : List String :=
  (sortDesc zset).map Prod.fst

/-- Start-index normalization of the substrate range protocol: a
negative start counts from the end of the set and is clamped at 0. -/
def normStart (n start : Int) : Int :=
  if start < 0 then max (n + start) 0 else start

/-- Stop-index normalization of the substrate range protocol: a
negative stop counts from the end of the set (-1 is the last element)
and a stop beyond the end is treated as the last element. -/
def normStop (n stop : Int) : Int :=
  min (if stop < 0 then n + stop else stop) (n - 1)

/-- ZREVRANGE semantics.  Modelled from the spec: the substrate offers
range-by-rank reads in descending order over its standard wire
protocol, with the standard index normalization of that protocol, and
an empty list when the normalized start exceeds the normalized stop or
the set size. -/
def zrevrange (zset : List (String × Int)) (start stop : Int) :
    List String :=
  let sorted := groupListing zset
  let s := normStart sorted.length start
  let e := normStop sorted.length stop
  if s > e then [] else (sorted.drop s.toNat).take (e - s + 1).toNat

/-- Sequentially map a fallible function over a list, failing as a
whole on the first failure. -/
def mapOpt {α β : Type} (f : α → Option β) : List α → Option (List β)
  | [] => some []
  | x :: rest =>
      match f x with
      | none => none
      | some y =>
          match mapOpt f rest with
          | none => none
          | some ys => some (y :: ys)

/-- Fetch every listed stored key from the primary object table; a
missing entry is a substrate-level failure (none). -/
def fetchKeys (st : RedisState) (keys : List String) : Option (List Bytes) :=
  mapOpt (fun k => alGet st.strings k) keys

/-- getObjectsByRevRange.  Modelled from the spec: resolve the stored
keys of the requested rank range from the grouping index, then fetch
each resolved stored key from the primary object table. -/
def getObjectsByRevRange (st : RedisState) (key : String)
    (start stop : Int) : Option (List Bytes) :=
  fetchKeys st (zrevrange (alGetD st.zsets key []) start stop)

/-- Intersection underlying the label query.  Modelled from the spec:
the result set of a multi-label query is the intersection of the id
membership index (the universal collection) with every label grouping
bucket, ordered by descending modified time; the score of each member
is its score in the first label bucket (every bucket scores a member by
the same modified time). -/
def labelIntersection (st : RedisState) (l0 : String) (rest : List String) :
    List (String × Int) :=
  (alGetD st.zsets (CreateKey DeviceCollectionLabel l0) []).filter
    (fun p =>
      zmember (alGetD st.zsets DeviceCollection []) p.1 &&
      rest.all (fun l =>
        zmember (alGetD st.zsets (CreateKey DeviceCollectionLabel l) []) p.1))

/-- getObjectsByLabelsAndSomeRange with the descending range command.
Modelled from the spec: with no labels the query ranges over the id
membership index itself; otherwise it ranges over the intersection of
the id membership index and every label bucket, then fetches each
resolved stored key from the primary object table. -/
def getObjectsByLabelsAndSomeRange (st : RedisState) (labels : List String)
    (start stop : Int) : Option (List Bytes) :=
  match labels with
  | [] => getObjectsByRevRange st DeviceCollection start stop
  | l0 :: rest =>
      fetchKeys st (zrevrange (labelIntersection st l0 rest) start stop)

/-- Decode loop shared by the paginated queries (device.go lines
171-179, 194-202, 217-225): deserialize every fetched entry, failing as
a whole on the first entry that does not decode. -/
def decodeList (unmarshal : Bytes → Option Device) (objects : List Bytes) :
    Option (List Device) :=
  mapOpt unmarshal objects

/-- devicesByServiceName (device.go lines 161-181). -/
def devicesByServiceName (unmarshal : Bytes → Option Device)
    (st : RedisState) (offset limit : Int) (name : String) :
    List Device × Option ErrKind :=
  let endIdx := if limit = -1 then limit else offset + limit - 1
  match getObjectsByRevRange st (CreateKey DeviceCollectionServiceName name)
      offset endIdx with
  | none => ([], some ErrKind.databaseError)
  | some objects =>
      match decodeList unmarshal objects with
      | none => ([], some ErrKind.databaseError)
      | some devices => (devices, none)

/-- devicesByProfileName (device.go lines 207-227). -/
def devicesByProfileName (unmarshal : Bytes → Option Device)
    (st : RedisState) (offset limit : Int) (profileName : String) :
    List Device × Option ErrKind :=
  let endIdx := if limit = -1 then limit else offset + limit - 1
  match getObjectsByRevRange st (CreateKey DeviceCollectionProfileName
      profileName) offset endIdx with
  | none => ([], some ErrKind.databaseError)
  | some objects =>
      match decodeList unmarshal objects with
      | none => ([], some ErrKind.databaseError)
      | some devices => (devices, none)

/-- devicesByLabels (device.go lines 184-204). -/
def devicesByLabels (unmarshal : Bytes → Option Device)
    (st : RedisState) (offset limit : Int) (labels : List String) :
    List Device × Option ErrKind :=
  let endIdx := if limit = -1 then limit else offset + limit - 1
  match getObjectsByLabelsAndSomeRange st labels offset endIdx with
  | none => ([], some ErrKind.databaseError)
  | some objects =>
      match decodeList unmarshal objects with
      | none => ([], some ErrKind.databaseError)
      | some devices => (devices, none)

/-- Common core of the three paginated queries, abstracted over the
sorted set being ranged; each query function is proved equal to this
core at its own grouping set. -/
def pagedResult (unmarshal : Bytes → Option Device) (st : RedisState)
    (zs : List (String × Int)) (offset limit : Int) :
    List Device × Option ErrKind :=
  let endIdx := if limit = -1 then limit else offset + limit - 1
  match fetchKeys st (zrevrange zs offset endIdx) with
  | none => ([], some ErrKind.databaseError)
  | some objects =>
      match decodeList unmarshal objects with
      | none => ([], some ErrKind.databaseError)
      | some devices => (devices, none)

/-- Commands that leave the string table of the substrate untouched. -/
def cmdKeepsStrings : Cmd → Bool
  | .set _ _ => false
  | .del _ => false
  | .zadd _ _ _ => true
  | .zrem _ _ => true
  | .hset _ _ _ => true
  | .hdel _ _ => true

/-- Encoder that always fails, exercising the marshal failure path. -/
def failMarshal : Device → Option Bytes := fun _ => none

/-- Decoder that always fails, exercising the decode failure path. -/
def failUnmarshal : Bytes → Option Device := fun _ => none

/-- The empty substrate state. -/
def exSt0 : RedisState := { strings := [], zsets := [], hashes := [] }

/-- A concrete device fixture. -/
def exD1 : Device :=
  { Id := "d1", Name := "therm-1", ServiceName := "svc1",
    ProfileName := "prof1", Labels := ["floor1", "temp"],
    Created := 0, Modified := 0 }

/-- A second concrete device fixture. -/
def exD2 : Device :=
  { Id := "d2", Name := "therm-2", ServiceName := "svc1",
    ProfileName := "prof1", Labels := ["temp"], Created := 5,
    Modified := 0 }

/-- A device with a fresh id but the same name as exD1. -/
def exD3 : Device := { exD1 with Id := "d3" }

/-- State holding exD1 (created at time 100). -/
def exSt1 : RedisState := (addDevice jsonMarshal 100 exSt0 exD1).2.1

/-- State holding exD1 and exD2 (created at times 100 and 200). -/
def exSt2 : RedisState := (addDevice jsonMarshal 200 exSt1 exD2).2.1

/-- The batch of commands a successful addDevice queues between MULTI
and EXEC, named for reuse across lemmas (spelled out from device.go
lines 79-88). -/
def createBatch (d : Device) (bs : Bytes) (ts : Int) : List Cmd :=
  [Cmd.set (deviceStoredKey d.Id) bs,
   Cmd.zadd DeviceCollection 0 (deviceStoredKey d.Id),
   Cmd.hset DeviceCollectionName d.Name (deviceStoredKey d.Id),
   Cmd.zadd (CreateKey DeviceCollectionServiceName d.ServiceName) ts
     (deviceStoredKey d.Id),
   Cmd.zadd (CreateKey DeviceCollectionProfileName d.ProfileName) ts
     (deviceStoredKey d.Id)] ++
  d.Labels.map (fun label =>
    Cmd.zadd (CreateKey DeviceCollectionLabel label) ts
      (deviceStoredKey d.Id))

/-- The batch of commands deleteDevice queues between MULTI and EXEC,
named for reuse across lemmas (spelled out from device.go lines
144-152). -/
def deleteBatch (d : Device) : List Cmd :=
  [Cmd.del (deviceStoredKey d.Id),
   Cmd.zrem DeviceCollection (deviceStoredKey d.Id),
   Cmd.hdel DeviceCollectionName d.Name,
   Cmd.zrem (CreateKey DeviceCollectionServiceName d.ServiceName)
     (deviceStoredKey d.Id),
   Cmd.zrem (CreateKey DeviceCollectionProfileName d.ProfileName)
     (deviceStoredKey d.Id)] ++
  d.Labels.map (fun label =>
    Cmd.zrem (CreateKey DeviceCollectionLabel label) (deviceStoredKey d.Id))

/-- A successful addDevice returns the timestamped record, executes
exactly one atomic batch, and that batch holds exactly the primary
write and the index additions of device.go lines 79-88. -/
theorem addDevice_success (marshal : Device → Option Bytes) (ts : Int)
    (st : RedisState) (d : Device) (bs : Bytes)
    (hid : deviceIdExists st d.Id = false)
    (hname : deviceNameExists st d.Name = false)
    (hm : marshal (withTimestamps ts d) = some bs) :
    addDevice marshal ts st d =
      ((withTimestamps ts d, none),
       applyBatch st (createBatch d bs ts), [createBatch d bs ts]) := by
  unfold addDevice createBatch
  simp [hid, hname]
  rw [hm]
  simp [withTimestamps]

/-- C9: the keys used by create, delete and the queries follow the
fixed layout: primary object key md|dv:(id), id membership index key
md|dv, name uniqueness index key md|dv:name, service grouping key
md|dv:service:name:(serviceName), profile grouping key
md|dv:profile:name:(profileName), and label grouping key
md|dv:label:(label). -/
theorem key_space_layout (id serviceName profileName label : String) :
    deviceStoredKey id = "md|dv:" ++ id ∧
    DeviceCollection = "md|dv" ∧
    DeviceCollectionName = "md|dv:name" ∧
    CreateKey DeviceCollectionServiceName serviceName =
      "md|dv:service:name:" ++ serviceName ∧
    CreateKey DeviceCollectionProfileName profileName =
      "md|dv:profile:name:" ++ profileName ∧
    CreateKey DeviceCollectionLabel label = "md|dv:label:" ++ label :=
  ⟨rfl, rfl, rfl, rfl, rfl, rfl⟩

/-- C1: a successful addDevice issues exactly one atomic batch holding
the primary object write, the id membership addition with score 0, the
name-to-stored-key mapping, the service and profile grouping additions
scored by the modified time, and one label grouping addition per label,
and no other mutation. -/
theorem addDevice_issues_exactly_one_batch (marshal : Device → Option Bytes)
    (ts : Int) (st : RedisState) (d : Device) (bs : Bytes)
    (hid : deviceIdExists st d.Id = false)
    (hname : deviceNameExists st d.Name = false)
    (hm : marshal (withTimestamps ts d) = some bs) :
    addDevice marshal ts st d =
      ((withTimestamps ts d, none),
       applyBatch st (createBatch d bs ts), [createBatch d bs ts]) :=
  addDevice_success marshal ts st d bs hid hname hm

/-- Witness for C1 at a concrete device and the empty store. -/
theorem addDevice_issues_exactly_one_batch_inst :
    addDevice jsonMarshal 100 exSt0 exD1 =
      ((withTimestamps 100 exD1, none),
       applyBatch exSt0 (createBatch exD1 (withTimestamps 100 exD1) 100),
       [createBatch exD1 (withTimestamps 100 exD1) 100]) :=
  addDevice_issues_exactly_one_batch jsonMarshal 100 exSt0 exD1
    (withTimestamps 100 exD1) rfl rfl rfl

/-- C4 counterexample: creating a device whose id already exists fails
with the DuplicateName kind, not a DuplicateId kind, so the claim that
a duplicate id yields the DuplicateId error kind is false (device.go
line 58 passes KindDuplicateName). -/
theorem duplicate_id_kind_cex :
    (addDevice jsonMarshal 200 exSt1 exD1).1.2 = some ErrKind.duplicateName ∧
    some ErrKind.duplicateName ≠ some ErrKind.duplicateId := by
  exact ⟨rfl, by decide⟩

/-- C4 (amended): a create whose id already exists fails with the
DuplicateName error kind (the message, not the kind, reports the
duplicate id), and a create with a fresh id but an existing name also
fails with the DuplicateName error kind. -/
theorem duplicate_error_kinds (marshal : Device → Option Bytes) (ts : Int)
    (st : RedisState) (d : Device) :
    (deviceIdExists st d.Id = true →
      (addDevice marshal ts st d).1.2 = some ErrKind.duplicateName) ∧
    (deviceIdExists st d.Id = false → deviceNameExists st d.Name = true →
      (addDevice marshal ts st d).1.2 = some ErrKind.duplicateName) := by
  constructor
  · intro h
    simp [addDevice, h]
  · intro h1 h2
    simp [addDevice, h1, h2]

/-- Witness for the amended C4: duplicate id and duplicate name at
concrete devices over a store holding exD1. -/
theorem duplicate_error_kinds_inst :
    (addDevice jsonMarshal 200 exSt1 exD1).1.2 = some ErrKind.duplicateName ∧
    (addDevice jsonMarshal 200 exSt1 exD3).1.2 = some ErrKind.duplicateName :=
  ⟨(duplicate_error_kinds jsonMarshal 200 exSt1 exD1).1 (by decide),
   (duplicate_error_kinds jsonMarshal 200 exSt1 exD3).2 (by decide) (by decide)⟩

/-- C5: a create that fails the duplicate pre-checks (existing id or
existing name) leaves the substrate state unchanged and executes no
batch at all. -/
theorem duplicate_create_leaves_store (marshal : Device → Option Bytes)
    (ts : Int) (st : RedisState) (d : Device)
    (h : deviceIdExists st d.Id = true ∨ deviceNameExists st d.Name = true) :
    (addDevice marshal ts st d).2 = (st, []) := by
  rcases h with h | h
  · simp [addDevice, h]
  · by_cases hid : deviceIdExists st d.Id <;> simp [addDevice, hid, h]

/-- Witness for C5: the duplicate creates of the C4 witness leave the
one-device store untouched. -/
theorem duplicate_create_leaves_store_inst :
    (addDevice jsonMarshal 200 exSt1 exD1).2 = (exSt1, []) :=
  duplicate_create_leaves_store jsonMarshal 200 exSt1 exD1 (Or.inl (by decide))

/-- C7: a create that passes the duplicate pre-checks always overwrites
the modified time with the current timestamp and assigns the created
time only when the caller left it zero. -/
theorem create_timestamp_assignment (marshal : Device → Option Bytes)
    (ts : Int) (st : RedisState) (d : Device)
    (hid : deviceIdExists st d.Id = false)
    (hname : deviceNameExists st d.Name = false) :
    ((addDevice marshal ts st d).1.1).Modified = ts ∧
    ((addDevice marshal ts st d).1.1).Created =
      (if d.Created = 0 then ts else d.Created) := by
  unfold addDevice
  simp [hid, hname]
  cases h : marshal (withTimestamps ts d) <;> simp [h, withTimestamps]

/-- Witness for C7: a zero created time is assigned the timestamp, a
non-zero created time (exD2 carries 5) is preserved, and the modified
time is always assigned. -/
theorem create_timestamp_assignment_inst :
    ((addDevice jsonMarshal 100 exSt0 exD1).1.1).Modified = 100 ∧
    ((addDevice jsonMarshal 100 exSt0 exD1).1.1).Created = 100 ∧
    ((addDevice jsonMarshal 200 exSt0 exD2).1.1).Created = 5 := by
  refine ⟨(create_timestamp_assignment jsonMarshal 100 exSt0 exD1 rfl rfl).1,
    ?_, ?_⟩
  · have h := (create_timestamp_assignment jsonMarshal 100 exSt0 exD1 rfl rfl).2
    simpa [exD1] using h
  · have h := (create_timestamp_assignment jsonMarshal 200 exSt0 exD2 rfl rfl).2
    simpa [exD2] using h

/-- C10: when the record passes both duplicate pre-checks but
serialization fails, addDevice returns the ContractInvalid kind,
executes no batch, and leaves the substrate state unchanged. -/
theorem marshal_failure_no_commands (marshal : Device → Option Bytes)
    (ts : Int) (st : RedisState) (d : Device)
    (hid : deviceIdExists st d.Id = false)
    (hname : deviceNameExists st d.Name = false)
    (hm : marshal (withTimestamps ts d) = none) :
    addDevice marshal ts st d =
      ((withTimestamps ts d, some ErrKind.contractInvalid), st, []) := by
  unfold addDevice
  simp [hid, hname]
  rw [hm]

/-- Witness for C10 with an encoder that fails on the concrete device. -/
theorem marshal_failure_no_commands_inst :
    addDevice failMarshal 100 exSt0 exD1 =
      ((withTimestamps 100 exD1, some ErrKind.contractInvalid), exSt0, []) :=
  marshal_failure_no_commands failMarshal 100 exSt0 exD1 rfl rfl rfl

/-- Updating an association list at a key makes that key resolve to the
new value. -/
theorem alGet_alSet_self {α : Type} (l : List (String × α)) (k : String)
    (v : α) : alGet (alSet l k v) k = some v := by
  induction l with
  | nil => simp [alSet, alGet]
  | cons p rest ih =>
      obtain ⟨k2, v2⟩ := p
      by_cases h : k2 = k <;> simp [alSet, alGet, h, ih]

/-- A batch made only of sorted-set and hash commands leaves the string
table unchanged. -/
theorem applyBatch_strings_keep (cmds : List Cmd) :
    ∀ st : RedisState, (∀ c ∈ cmds, cmdKeepsStrings c = true) →
      (applyBatch st cmds).strings = st.strings := by
  induction cmds with
  | nil =>
      intro st _
      rfl
  | cons c rest ih =>
      intro st h
      have hc : cmdKeepsStrings c = true := h c (by simp)
      have hrest : ∀ x ∈ rest, cmdKeepsStrings x = true :=
        fun x hx => h x (by simp [hx])
      have hstep : applyBatch st (c :: rest) = applyBatch (applyCmd st c) rest :=
        rfl
      rw [hstep, ih (applyCmd st c) hrest]
      cases c <;> simp_all [cmdKeepsStrings, applyCmd]

/-- After the create batch, the primary object table maps the stored
key of the created device to the serialized bytes. -/
theorem createBatch_strings (st : RedisState) (d : Device) (bs : Bytes)
    (ts : Int) :
    (applyBatch st (createBatch d bs ts)).strings =
      alSet st.strings (deviceStoredKey d.Id) bs := by
  have hstep :
      applyBatch st (createBatch d bs ts) =
        applyBatch (applyCmd st (Cmd.set (deviceStoredKey d.Id) bs))
          (createBatch d bs ts).tail := rfl
  rw [hstep]
  have hkeep : ∀ c ∈ (createBatch d bs ts).tail, cmdKeepsStrings c = true := by
    intro c hc
    simp only [createBatch, List.cons_append, List.nil_append,
      List.tail_cons, List.mem_cons, List.mem_append, List.mem_map] at hc
    rcases hc with rfl | rfl | rfl | rfl | ⟨label, _, rfl⟩ <;> rfl
  rw [applyBatch_strings_keep _ _ hkeep]
  rfl

/-- C8: a successful create followed by a lookup by the same id returns
the stored record, which agrees with the submitted record on every
field except the server-assigned created and modified timestamps. -/
theorem create_roundtrip_by_id (marshal : Device → Option Bytes)
    (unmarshal : Bytes → Option Device) (ts : Int) (st : RedisState)
    (d : Device) (bs : Bytes)
    (hid : deviceIdExists st d.Id = false)
    (hname : deviceNameExists st d.Name = false)
    (hm : marshal (withTimestamps ts d) = some bs)
    (hu : unmarshal bs = some (withTimestamps ts d)) :
    deviceById unmarshal (addDevice marshal ts st d).2.1 d.Id =
      (withTimestamps ts d, none) ∧
    (withTimestamps ts d).Id = d.Id ∧
    (withTimestamps ts d).Name = d.Name ∧
    (withTimestamps ts d).ServiceName = d.ServiceName ∧
    (withTimestamps ts d).ProfileName = d.ProfileName ∧
    (withTimestamps ts d).Labels = d.Labels := by
  refine ⟨?_, rfl, rfl, rfl, rfl, rfl⟩
  rw [addDevice_success marshal ts st d bs hid hname hm]
  show deviceById unmarshal (applyBatch st (createBatch d bs ts)) d.Id = _
  unfold deviceById
  rw [createBatch_strings, alGet_alSet_self]
  simp [hu]

/-- Witness for C8 at a concrete device and the empty store. -/
theorem create_roundtrip_by_id_inst :
    deviceById jsonUnmarshal (addDevice jsonMarshal 100 exSt0 exD1).2.1
      exD1.Id = (withTimestamps 100 exD1, none) :=
  (create_roundtrip_by_id jsonMarshal jsonUnmarshal 100 exSt0 exD1
    (withTimestamps 100 exD1) rfl rfl rfl rfl).1

/-- C2: both deletes resolve the full record first; when resolution
finds nothing they fail with the NotFound kind and leave the store
unchanged with no batch executed, and when resolution succeeds they
execute exactly one atomic batch that deletes the primary entry and
removes the stored key from the id membership index, the name
uniqueness index, the service and profile buckets, and every label
bucket of the resolved record. -/
theorem delete_resolve_then_remove (unmarshal : Bytes → Option Device)
    (st : RedisState) :
    (∀ id, alGet st.strings (deviceStoredKey id) = none →
      deleteDeviceById unmarshal st id = (some ErrKind.notFound, st, [])) ∧
    (∀ id bs d, alGet st.strings (deviceStoredKey id) = some bs →
      unmarshal bs = some d →
      deleteDeviceById unmarshal st id =
        (none, applyBatch st (deleteBatch d), [deleteBatch d])) ∧
    (∀ name, alGet (alGetD st.hashes DeviceCollectionName []) name = none →
      deleteDeviceByName unmarshal st name =
        (some ErrKind.notFound, st, [])) ∧
    (∀ name sk bs d,
      alGet (alGetD st.hashes DeviceCollectionName []) name = some sk →
      alGet st.strings sk = some bs → unmarshal bs = some d →
      deleteDeviceByName unmarshal st name =
        (none, applyBatch st (deleteBatch d), [deleteBatch d])) := by
  refine ⟨?_, ?_, ?_, ?_⟩
  · intro id h
    simp [deleteDeviceById, deviceById, h]
  · intro id bs d hb hd
    simp [deleteDeviceById, deviceById, hb, hd, deleteDevice, deleteBatch]
  · intro name h
    simp [deleteDeviceByName, deviceByName, h]
  · intro name sk bs d hs hb hd
    simp [deleteDeviceByName, deviceByName, hs, hb, hd, deleteDevice,
      deleteBatch]

/-- Witness for C2: an absent id fails with NotFound over the one-device
store, and deleting the present device by id and by name executes its
removal batch. -/
theorem delete_resolve_then_remove_inst :
    deleteDeviceById jsonUnmarshal exSt1 "zz" =
      (some ErrKind.notFound, exSt1, []) ∧
    deleteDeviceById jsonUnmarshal exSt1 "d1" =
      (none, applyBatch exSt1 (deleteBatch (withTimestamps 100 exD1)),
       [deleteBatch (withTimestamps 100 exD1)]) ∧
    deleteDeviceByName jsonUnmarshal exSt1 "zz" =
      (some ErrKind.notFound, exSt1, []) ∧
    deleteDeviceByName jsonUnmarshal exSt1 "therm-1" =
      (none, applyBatch exSt1 (deleteBatch (withTimestamps 100 exD1)),
       [deleteBatch (withTimestamps 100 exD1)]) :=
  ⟨(delete_resolve_then_remove jsonUnmarshal exSt1).1 "zz" rfl,
   (delete_resolve_then_remove jsonUnmarshal exSt1).2.1 "d1"
     (withTimestamps 100 exD1) (withTimestamps 100 exD1) rfl rfl,
   (delete_resolve_then_remove jsonUnmarshal exSt1).2.2.1 "zz" rfl,
   (delete_resolve_then_remove jsonUnmarshal exSt1).2.2.2 "therm-1"
     (deviceStoredKey "d1") (withTimestamps 100 exD1)
     (withTimestamps 100 exD1) rfl rfl rfl⟩

/-- mapOpt fails as a whole whenever the function fails on any listed
element. -/
theorem mapOpt_eq_none {α β : Type} (f : α → Option β) (l : List α)
    (x : α) (hx : x ∈ l) (hf : f x = none) : mapOpt f l = none := by
  induction l with
  | nil => cases hx
  | cons y rest ih =>
      rcases List.mem_cons.mp hx with rfl | h
      · simp [mapOpt, hf]
      · cases hy : f y <;> simp [mapOpt, hy, ih h]

/-- C6: when the rank-range fetch succeeds but any single fetched entry
fails to deserialize, each paginated query fails as a whole with the
DatabaseError kind and returns the empty record list. -/
theorem query_decode_failure_failfast (unmarshal : Bytes → Option Device)
    (st : RedisState) (offset limit : Int) :
    (∀ name objects,
      getObjectsByRevRange st (CreateKey DeviceCollectionServiceName name)
        offset (if limit = -1 then limit else offset + limit - 1) =
          some objects →
      (∃ b ∈ objects, unmarshal b = none) →
      devicesByServiceName unmarshal st offset limit name =
        ([], some ErrKind.databaseError)) ∧
    (∀ profileName objects,
      getObjectsByRevRange st
        (CreateKey DeviceCollectionProfileName profileName)
        offset (if limit = -1 then limit else offset + limit - 1) =
          some objects →
      (∃ b ∈ objects, unmarshal b = none) →
      devicesByProfileName unmarshal st offset limit profileName =
        ([], some ErrKind.databaseError)) ∧
    (∀ labels objects,
      getObjectsByLabelsAndSomeRange st labels
        offset (if limit = -1 then limit else offset + limit - 1) =
          some objects →
      (∃ b ∈ objects, unmarshal b = none) →
      devicesByLabels unmarshal st offset limit labels =
        ([], some ErrKind.databaseError)) := by
  refine ⟨?_, ?_, ?_⟩
  · intro name objects hobj hex
    obtain ⟨b, hb, hbn⟩ := hex
    have hdec : decodeList unmarshal objects = none :=
      mapOpt_eq_none unmarshal objects b hb hbn
    simp [devicesByServiceName, hobj, hdec]
  · intro profileName objects hobj hex
    obtain ⟨b, hb, hbn⟩ := hex
    have hdec : decodeList unmarshal objects = none :=
      mapOpt_eq_none unmarshal objects b hb hbn
    simp [devicesByProfileName, hobj, hdec]
  · intro labels objects hobj hex
    obtain ⟨b, hb, hbn⟩ := hex
    have hdec : decodeList unmarshal objects = none :=
      mapOpt_eq_none unmarshal objects b hb hbn
    simp [devicesByLabels, hobj, hdec]

/-- Witness for C6: over the one-device store a decoder that fails on
the stored entry makes all three queries return the empty list with the
DatabaseError kind. -/
theorem query_decode_failure_failfast_inst :
    devicesByServiceName failUnmarshal exSt1 0 (-1) "svc1" =
      ([], some ErrKind.databaseError) ∧
    devicesByProfileName failUnmarshal exSt1 0 (-1) "prof1" =
      ([], some ErrKind.databaseError) ∧
    devicesByLabels failUnmarshal exSt1 0 (-1) ["temp"] =
      ([], some ErrKind.databaseError) :=
  ⟨(query_decode_failure_failfast failUnmarshal exSt1 0 (-1)).1 "svc1"
     [withTimestamps 100 exD1] rfl
     ⟨withTimestamps 100 exD1, by simp, rfl⟩,
   (query_decode_failure_failfast failUnmarshal exSt1 0 (-1)).2.1 "prof1"
     [withTimestamps 100 exD1] rfl
     ⟨withTimestamps 100 exD1, by simp, rfl⟩,
   (query_decode_failure_failfast failUnmarshal exSt1 0 (-1)).2.2 ["temp"]
     [withTimestamps 100 exD1] rfl
     ⟨withTimestamps 100 exD1, by simp, rfl⟩⟩

/-- A descending range read with stop -1 returns the full descending
listing from the start rank to the end of the set. -/
theorem zrevrange_neg_one (z : List (String × Int)) (k : Int)
    (hk : 0 ≤ k) : zrevrange z k (-1) = (groupListing z).drop k.toNat := by
  simp only [zrevrange, normStart, normStop]
  set L := groupListing z with hL
  rw [if_neg (by omega : ¬ k < 0), if_pos (by omega : (-1 : Int) < 0)]
  have he : min ((L.length : Int) + -1) ((L.length : Int) - 1) =
      (L.length : Int) - 1 := by omega
  rw [he]
  by_cases hbig : k > (L.length : Int) - 1
  · rw [if_pos hbig]
    exact (List.drop_eq_nil_of_le (by omega)).symm
  · rw [if_neg hbig]
    have hlen : (L.drop k.toNat).length = L.length - k.toNat :=
      List.length_drop _ _
    exact List.take_of_length_le (by omega)

/-- A descending range read over the window from rank k to rank
k + m - 1 returns the m-element slice of the full descending listing
starting at rank k, except in the degenerate case k = 0, m = 0 where
the stop index becomes the end-of-set sentinel -1. -/
theorem zrevrange_window (z : List (String × Int)) (k m : Int)
    (hk : 0 ≤ k) (hm : 0 ≤ m) (hnz : ¬(k = 0 ∧ m = 0)) :
    zrevrange z k (k + m - 1) =
      ((groupListing z).drop k.toNat).take m.toNat := by
  simp only [zrevrange, normStart, normStop]
  set L := groupListing z with hL
  rw [if_neg (by omega : ¬ k < 0), if_neg (by omega : ¬ k + m - 1 < 0)]
  by_cases hse : k > min (k + m - 1) ((L.length : Int) - 1)
  · rw [if_pos hse]
    rcases (by omega : m = 0 ∨ (L.length : Int) ≤ k) with h0 | hbig
    · subst h0
      simp
    · rw [List.drop_eq_nil_of_le (by omega)]
      simp
  · rw [if_neg hse]
    rw [List.take_eq_take]
    have hlen : (L.drop k.toNat).length = L.length - k.toNat :=
      List.length_drop _ _
    rw [hlen]
    omega

/-- mapOpt commutes with dropping a prefix of the input list. -/
theorem mapOpt_drop {α β : Type} (f : α → Option β) :
    ∀ (a : ℕ) (l : List α) (ys : List β), mapOpt f l = some ys →
      mapOpt f (l.drop a) = some (ys.drop a) := by
  intro a
  induction a with
  | zero =>
      intro l ys h
      simpa using h
  | succ a ih =>
      intro l ys h
      cases l with
      | nil =>
          simp only [mapOpt, Option.some.injEq] at h
          subst h
          simp [mapOpt]
      | cons x rest =>
          rw [List.drop_succ_cons]
          cases hx : f x with
          | none => simp [mapOpt, hx] at h
          | some y =>
              cases hr : mapOpt f rest with
              | none => simp [mapOpt, hx, hr] at h
              | some ys2 =>
                  simp only [mapOpt, hx, hr, Option.some.injEq] at h
                  subst h
                  rw [List.drop_succ_cons]
                  exact ih rest ys2 hr

/-- mapOpt commutes with taking a prefix of the input list. -/
theorem mapOpt_take {α β : Type} (f : α → Option β) :
    ∀ (a : ℕ) (l : List α) (ys : List β), mapOpt f l = some ys →
      mapOpt f (l.take a) = some (ys.take a) := by
  intro a
  induction a with
  | zero =>
      intro l ys _
      simp [mapOpt]
  | succ a ih =>
      intro l ys h
      cases l with
      | nil =>
          simp only [mapOpt, Option.some.injEq] at h
          subst h
          simp [mapOpt]
      | cons x rest =>
          cases hx : f x with
          | none => simp [mapOpt, hx] at h
          | some y =>
              cases hr : mapOpt f rest with
              | none => simp [mapOpt, hx, hr] at h
              | some ys2 =>
                  simp only [mapOpt, hx, hr, Option.some.injEq] at h
                  subst h
                  rw [List.take_succ_cons, List.take_succ_cons]
                  simp [mapOpt, hx, ih rest ys2 hr]

/-- devicesByServiceName is the paginated-query core at the service
grouping bucket. -/
theorem devicesByServiceName_eq (u : Bytes → Option Device)
    (st : RedisState) (k m : Int) (name : String) :
    devicesByServiceName u st k m name =
      pagedResult u st
        (alGetD st.zsets (CreateKey DeviceCollectionServiceName name) [])
        k m := rfl

/-- devicesByProfileName is the paginated-query core at the profile
grouping bucket. -/
theorem devicesByProfileName_eq (u : Bytes → Option Device)
    (st : RedisState) (k m : Int) (profileName : String) :
    devicesByProfileName u st k m profileName =
      pagedResult u st
        (alGetD st.zsets (CreateKey DeviceCollectionProfileName profileName)
          []) k m := rfl

/-- devicesByLabels with a non-empty label list is the paginated-query
core at the label intersection. -/
theorem devicesByLabels_cons_eq (u : Bytes → Option Device)
    (st : RedisState) (k m : Int) (l0 : String) (rest : List String) :
    devicesByLabels u st k m (l0 :: rest) =
      pagedResult u st (labelIntersection st l0 rest) k m := rfl

/-- Pagination behaviour of the query core over any grouping set whose
full descending listing resolves and decodes. -/
theorem pagedResult_spec (u : Bytes → Option Device) (st : RedisState)
    (zs : List (String × Int)) (k m : Int) (bsAll : List Bytes)
    (ds : List Device) (hk : 0 ≤ k)
    (hb : fetchKeys st (groupListing zs) = some bsAll)
    (hd : decodeList u bsAll = some ds) :
    (m = -1 → pagedResult u st zs k m = (ds.drop k.toNat, none)) ∧
    (0 ≤ m → ¬(k = 0 ∧ m = 0) →
      pagedResult u st zs k m = ((ds.drop k.toNat).take m.toNat, none)) ∧
    (k = 0 → m = 0 → pagedResult u st zs k m = (ds, none)) := by
  refine ⟨?_, ?_, ?_⟩
  · intro hm1
    subst hm1
    have h1 : fetchKeys st ((groupListing zs).drop k.toNat) =
        some (bsAll.drop k.toNat) := mapOpt_drop _ _ _ _ hb
    have h2 : decodeList u (bsAll.drop k.toNat) =
        some (ds.drop k.toNat) := mapOpt_drop _ _ _ _ hd
    simp [pagedResult, zrevrange_neg_one zs k hk, h1, h2]
  · intro hm0 hnz
    have hne : ¬ m = -1 := by omega
    have h1 : fetchKeys st (((groupListing zs).drop k.toNat).take m.toNat) =
        some ((bsAll.drop k.toNat).take m.toNat) :=
      mapOpt_take _ _ _ _ (mapOpt_drop _ _ _ _ hb)
    have h2 : decodeList u ((bsAll.drop k.toNat).take m.toNat) =
        some ((ds.drop k.toNat).take m.toNat) :=
      mapOpt_take _ _ _ _ (mapOpt_drop _ _ _ _ hd)
    simp [pagedResult, hne, zrevrange_window zs k m hk hm0 hnz, h1, h2]
  · intro hk0 hm0
    subst hk0
    subst hm0
    have h0 : zrevrange zs 0 (-1) = groupListing zs := by
      simpa using zrevrange_neg_one zs 0 (by omega)
    simp [pagedResult, h0, hb, hd]

/-- C3 counterexample: over a service group holding two records, the
query with offset 0 and limit 0 returns both records, not at most 0;
the end index offset + limit - 1 = -1 is the substrate sentinel for the
last element, so the whole group comes back. -/
theorem pagination_limit_zero_cex :
    devicesByServiceName jsonUnmarshal exSt2 0 0 "svc1" =
      ([withTimestamps 200 exD2, withTimestamps 100 exD1], none) ∧
    ¬((devicesByServiceName jsonUnmarshal exSt2 0 0 "svc1").1.length ≤ 0) := by
  constructor
  · rfl
  · decide

/-- C3 (amended): for each paginated query over a group whose full
descending listing resolves and decodes to ds, offset k with limit -1
returns all records from rank k to the end of the listing, offset k
with limit m at least 0 returns exactly the slice of the listing from
rank k of length at most m, except in the degenerate case k = 0 and
m = 0 where the whole listing is returned (the computed end index -1 is
the substrate sentinel for the last element); an offset beyond the
group size yields an empty, non-error result since the drop empties the
listing. -/
theorem pagination_window (u : Bytes → Option Device) (st : RedisState)
    (k m : Int) (hk : 0 ≤ k) :
    (∀ name bsAll ds,
      fetchKeys st (groupListing
        (alGetD st.zsets (CreateKey DeviceCollectionServiceName name) [])) =
          some bsAll →
      decodeList u bsAll = some ds →
      ((m = -1 →
        devicesByServiceName u st k m name = (ds.drop k.toNat, none)) ∧
       (0 ≤ m → ¬(k = 0 ∧ m = 0) →
        devicesByServiceName u st k m name =
          ((ds.drop k.toNat).take m.toNat, none)) ∧
       (k = 0 → m = 0 →
        devicesByServiceName u st k m name = (ds, none)))) ∧
    (∀ profileName bsAll ds,
      fetchKeys st (groupListing
        (alGetD st.zsets
          (CreateKey DeviceCollectionProfileName profileName) [])) =
          some bsAll →
      decodeList u bsAll = some ds →
      ((m = -1 →
        devicesByProfileName u st k m profileName =
          (ds.drop k.toNat, none)) ∧
       (0 ≤ m → ¬(k = 0 ∧ m = 0) →
        devicesByProfileName u st k m profileName =
          ((ds.drop k.toNat).take m.toNat, none)) ∧
       (k = 0 → m = 0 →
        devicesByProfileName u st k m profileName = (ds, none)))) ∧
    (∀ l0 rest bsAll ds,
      fetchKeys st (groupListing (labelIntersection st l0 rest)) =
        some bsAll →
      decodeList u bsAll = some ds →
      ((m = -1 →
        devicesByLabels u st k m (l0 :: rest) = (ds.drop k.toNat, none)) ∧
       (0 ≤ m → ¬(k = 0 ∧ m = 0) →
        devicesByLabels u st k m (l0 :: rest) =
          ((ds.drop k.toNat).take m.toNat, none)) ∧
       (k = 0 → m = 0 →
        devicesByLabels u st k m (l0 :: rest) = (ds, none)))) := by
  refine ⟨?_, ?_, ?_⟩
  · intro name bsAll ds hb hd
    rw [devicesByServiceName_eq u st k m name]
    exact pagedResult_spec u st _ k m bsAll ds hk hb hd
  · intro profileName bsAll ds hb hd
    rw [devicesByProfileName_eq u st k m profileName]
    exact pagedResult_spec u st _ k m bsAll ds hk hb hd
  · intro l0 rest bsAll ds hb hd
    rw [devicesByLabels_cons_eq u st k m l0 rest]
    exact pagedResult_spec u st _ k m bsAll ds hk hb hd

/-- Witness for the amended C3 over a two-device store: limit -1
returns the whole descending listing, an inner window returns its
slice, the label query returns the intersection listing, and an offset
beyond the group size returns the empty non-error result. -/
theorem pagination_window_inst :
    devicesByServiceName jsonUnmarshal exSt2 0 (-1) "svc1" =
      ([withTimestamps 200 exD2, withTimestamps 100 exD1], none) ∧
    devicesByServiceName jsonUnmarshal exSt2 1 1 "svc1" =
      ([withTimestamps 100 exD1], none) ∧
    devicesByLabels jsonUnmarshal exSt2 0 (-1) ["temp"] =
      ([withTimestamps 200 exD2, withTimestamps 100 exD1], none) ∧
    devicesByProfileName jsonUnmarshal exSt2 5 3 "prof1" = ([], none) :=
  ⟨((pagination_window jsonUnmarshal exSt2 0 (-1) (by decide)).1 "svc1"
      [withTimestamps 200 exD2, withTimestamps 100 exD1]
      [withTimestamps 200 exD2, withTimestamps 100 exD1] rfl rfl).1 rfl,
   ((pagination_window jsonUnmarshal exSt2 1 1 (by decide)).1 "svc1"
      [withTimestamps 200 exD2, withTimestamps 100 exD1]
      [withTimestamps 200 exD2, withTimestamps 100 exD1] rfl rfl).2.1
      (by decide) (by decide),
   ((pagination_window jsonUnmarshal exSt2 0 (-1) (by decide)).2.2 "temp" []
      [withTimestamps 200 exD2, withTimestamps 100 exD1]
      [withTimestamps 200 exD2, withTimestamps 100 exD1] rfl rfl).1 rfl,
   ((pagination_window jsonUnmarshal exSt2 5 3 (by decide)).2.1 "prof1"
      [withTimestamps 200 exD2, withTimestamps 100 exD1]
      [withTimestamps 200 exD2, withTimestamps 100 exD1] rfl rfl).2.1
      (by decide) (by decide)⟩

end DeviceStore
